import Mathlib

/-!
Verification of the OpenLR webtool decoding-analysis core.

This file gives a shallow embedding of the map-adapter layer and the
cross-map diagnosis engine of the openlr-webtool-python repository and
proves (or refutes) the specified properties against it.

Modelling conventions:
  * Float arithmetic of the source is modelled with exact rationals.
  * External collaborators (the openlr_dereferencer decode call, the
    spatial database, shapely containment and intersection, and the
    pyproj geodesic solver) are modelled as oracle functions carried in
    a record; everything the repository itself computes is transcribed
    from the source.
  * Python generators are modelled as fully materialised lists; Python
    exceptions are modelled with Except.
-/

namespace OpenLRWebtool

/-- A WGS84 coordinate pair (lon, lat) with exact rational components. -/
abbrev Pt : Type := ℚ × ℚ

/-- A shapely LineString, modelled as its coordinate sequence. -/
abbrev LineString : Type := List Pt

/-- Python exceptions that the analysed code paths can raise. -/
inductive GeoErr where
  /-- ValueError raised by join_lines when consecutive lines do not connect. -/
  | notConnected : GeoErr
  /-- IndexError from indexing an empty coordinate sequence. -/
  | indexError : GeoErr
  /-- AttributeError from treating a non-line decode result as a LineLocation. -/
  | attributeError : GeoErr
deriving DecidableEq

/-- The diagnosis outcomes named symbolically by
decoding_analysis_tool/main.py.  Python resolves these names against the
AnalysisResult enum only when the branch executes; the enum actually
defined in analysis_result.py is recorded separately below as
analysisResultEnumMembers. -/
inductive AnalysisResult where
  | OK : AnalysisResult
  | ALTERNATE_SHORTEST_PATH : AnalysisResult
  | MISSING_OR_MISCONFIGURED_ROAD : AnalysisResult
  | FRC_MISMATCH : AnalysisResult
  | FOW_MISMATCH : AnalysisResult
  | PATH_LENGTH_MISMATCH : AnalysisResult
  | BEARING_MISMATCH : AnalysisResult
  | INCORRECT_FIRST_OR_LAST_LRP_PLACEMENT : AnalysisResult
  | UNSUPPORTED_LOCATION_TYPE : AnalysisResult
  | OUTSIDE_MAP_BOUNDS : AnalysisResult
  | UNKNOWN_ERROR : AnalysisResult
deriving DecidableEq

/-- The Python attribute name under which main.py accesses each outcome
on the AnalysisResult enum. -/
def pyAttributeName : AnalysisResult → String
  | .OK => "OK"
  | .ALTERNATE_SHORTEST_PATH => "ALTERNATE_SHORTEST_PATH"
  | .MISSING_OR_MISCONFIGURED_ROAD => "MISSING_OR_MISCONFIGURED_ROAD"
  | .FRC_MISMATCH => "FRC_MISMATCH"
  | .FOW_MISMATCH => "FOW_MISMATCH"
  | .PATH_LENGTH_MISMATCH => "PATH_LENGTH_MISMATCH"
  | .BEARING_MISMATCH => "BEARING_MISMATCH"
  | .INCORRECT_FIRST_OR_LAST_LRP_PLACEMENT => "INCORRECT_FIRST_OR_LAST_LRP_PLACEMENT"
  | .UNSUPPORTED_LOCATION_TYPE => "UNSUPPORTED_LOCATION_TYPE"
  | .OUTSIDE_MAP_BOUNDS => "OUTSIDE_MAP_BOUNDS"
  | .UNKNOWN_ERROR => "UNKNOWN_ERROR"

/-- The member names of the AnalysisResult enum exactly as defined in
src/decoding_analysis_tool/analysis_result.py (lines 4-14).  An attribute
access with any other name raises AttributeError at runtime. -/
def analysisResultEnumMembers : List String :=
  ["OK", "MISSING_PATH", "ALTERNATE_SHORTEST_PATH", "FRC_MISMATCH",
   "FOW_MISMATCH", "BEARING_MISMATCH", "PATH_TOO_LONG", "PATH_TOO_SHORT",
   "UNSUPPORTED_LOCATION_TYPE", "UNKNOWN_ERROR"]

/-! ## Geodesic toolkit (geotool_4326.py)

The pyproj Geod calls (geod.inv, geod.fwd, geod.geometry_length) are the
consumed ellipsoidal solver; they are modelled as an abstract record of
functions.  The algorithms layered on top of them (split_line,
join_lines) are transcribed from GeoTool_4326. -/

/-- Abstract model of the pyproj geodesic solver: inverse distance,
forward azimuth and forward extrapolation. -/
structure Geod where
  dist : Pt → Pt → ℚ
  az : Pt → Pt → ℚ
  extrap : Pt → ℚ → ℚ → Pt

/-- The per-segment geodesic distances of a coordinate sequence, as
computed by the vectorised geod.inv call in split_line. -/
def segDists (g : Geod) (l : List Pt) : List ℚ :=
  (l.zip l.tail).map (fun pq => g.dist pq.1 pq.2)

/-- geod.geometry_length: the geodesic length of a line string is the sum
of its per-segment distances. -/
def lineLen (g : Geod) (l : List Pt) : ℚ :=
  (segDists g l).sum

/-- itertools.accumulate: running partial sums, starting from acc. -/
def accumulate : List ℚ → ℚ → List ℚ
  | [], _ => []
  | d :: ds, acc => (acc + d) :: accumulate ds (acc + d)

/-- The for-loop of GeoTool_4326.split_line over
enumerate(accumulate(dists)), with its early returns.  The arguments are
the original line, the precomputed segment distances, the split distance,
the current enumeration index and the remaining accumulated distances.
Falling off the end of the loop gives the pair (line, None). -/
def splitSearch (g : Geod) (line : List Pt) (dists : List ℚ) (d : ℚ) :
    ℕ → List ℚ → Option (List Pt) × Option (List Pt)
  | i, a :: rest =>
    if d < a then
      let offset := dists.getD i 0 - (a - d)
      if offset = 0 then
        (some (line.take (i + 1)), some (line.drop i))
      else
        let p := line.getD i (0, 0)
        let q := line.getD (i + 1) (0, 0)
        let c := g.extrap p offset (g.az p q)
        (some (line.take (i + 1) ++ [c]), some (c :: line.drop (i + 1)))
    else
      splitSearch g line dists d (i + 1) rest
  | _, [] => (some line, none)

/-- GeoTool_4326.split_line: splits a line at a given number of meters
into it; a part is None when it would degenerate to a point. -/
def split_line (g : Geod) (line : List Pt) (d : ℚ) :
    Option (List Pt) × Option (List Pt) :=
  if d = 0 then (none, some line)
  else splitSearch g line (segDists g line) d 0 (accumulate (segDists g line) 0)

/-- The loop of GeoTool_4326.join_lines: coords is the accumulated
coordinate list, lastc the final coordinate of the previously consumed
line (None before the first). -/
def joinAux : List (List Pt) → List Pt → Option Pt → Except GeoErr (List Pt)
  | [], coords, _ => .ok coords
  | [] :: _, _, _ => .error .indexError
  | (c :: cs) :: rest, coords, none =>
      joinAux rest (coords ++ [c] ++ cs) (some (cs.getLastD c))
  | (c :: cs) :: rest, coords, some lastc =>
      if c ≠ lastc then .error .notConnected
      else joinAux rest (coords ++ cs) (some (cs.getLastD c))

/-- GeoTool_4326.join_lines: concatenates the coordinate sequences of
consecutive lines, raising ValueError when they do not connect. -/
def join_lines (lines : List (List Pt)) : Except GeoErr (List Pt) :=
  joinAux lines [] none

/-! ## Configuration bundles (webtool/decoder_configs.py)

Config is the parameter record consumed by the external decoder.  Fields
not passed at a construction site fall back to library defaults that live
outside this repository; such fields are modelled as Option with none
meaning "library default".  All bundles below are transcribed from
webtool/decoder_configs.py, the module that defines the ladder bundles
imported by decoding_analysis_tool/main.py. -/

structure Config where
  min_score : Option ℚ
  candidate_threshold : Option ℤ
  max_dnp_deviation : ℚ
  tolerated_dnp_dev : ℤ
  tolerated_lfrc : List (ℕ × ℕ)
  max_bear_deviation : ℚ
  search_radius : ℚ
  geo_weight : ℚ
  frc_weight : ℚ
  fow_weight : ℚ
  bear_weight : ℚ
  fow_standin_score : List (List ℚ)
deriving DecidableEq

def STRICT_FOW_STAND_IN_SCORE : List (List ℚ) :=
  [[1/2, 1/2, 1/2, 1/2, 1/2, 1/2, 1/2, 1/10],
   [1/2, 1, 3/4, 1/4, 0, 0, 0, 1/10],
   [1/2, 3/4, 1, 3/4, 1/2, 0, 0, 1/10],
   [1/2, 0, 3/4, 1, 1/2, 1/2, 0, 1/10],
   [1/2, 0, 0, 1/2, 1, 1/2, 0, 1/10],
   [1/2, 0, 0, 1/2, 1/2, 1, 0, 1/10],
   [1/2, 1/2, 2/5, 3/10, 0, 0, 1, 1/10],
   [1/2, 0, 0, 0, 0, 0, 0, 1]]

def RELAXED_FOW_STAND_IN_SCORE : List (List ℚ) :=
  List.replicate 8 (List.replicate 8 1)

def STRICT_TOLERATED_LFRC : List (ℕ × ℕ) :=
  [(0, 1), (1, 2), (2, 3), (3, 4), (4, 5), (5, 6), (6, 7), (7, 7)]

def RELAXED_TOLERATED_LFRC : List (ℕ × ℕ) :=
  [(0, 7), (1, 7), (2, 7), (3, 7), (4, 7), (5, 7), (6, 7), (7, 7)]

def StrictConfig : Config :=
  { min_score := none
    candidate_threshold := none
    max_dnp_deviation := 1/10
    tolerated_dnp_dev := 30
    tolerated_lfrc := STRICT_TOLERATED_LFRC
    max_bear_deviation := 30
    search_radius := 20
    geo_weight := 1/4
    frc_weight := 1/4
    fow_weight := 1/4
    bear_weight := 1/4
    fow_standin_score := STRICT_FOW_STAND_IN_SCORE }

def AnyPath : Config :=
  { min_score := some 0
    candidate_threshold := some 0
    max_dnp_deviation := 2/10
    tolerated_dnp_dev := 30
    tolerated_lfrc := RELAXED_TOLERATED_LFRC
    max_bear_deviation := 180
    search_radius := 20
    geo_weight := 1
    frc_weight := 0
    fow_weight := 0
    bear_weight := 0
    fow_standin_score := STRICT_FOW_STAND_IN_SCORE }

def IgnoreFRC : Config :=
  { min_score := some (3/10)
    candidate_threshold := some 0
    max_dnp_deviation := 2/10
    tolerated_dnp_dev := 30
    tolerated_lfrc := RELAXED_TOLERATED_LFRC
    max_bear_deviation := 30
    search_radius := 20
    geo_weight := 33/100
    frc_weight := 0
    fow_weight := 33/100
    bear_weight := 33/100
    fow_standin_score := STRICT_FOW_STAND_IN_SCORE }

def IgnoreBearing : Config :=
  { min_score := some (3/10)
    candidate_threshold := some 0
    max_dnp_deviation := 2/10
    tolerated_dnp_dev := 30
    tolerated_lfrc := STRICT_TOLERATED_LFRC
    max_bear_deviation := 180
    search_radius := 20
    geo_weight := 33/100
    frc_weight := 33/100
    fow_weight := 33/100
    bear_weight := 0
    fow_standin_score := STRICT_FOW_STAND_IN_SCORE }

def IgnoreFOW : Config :=
  { min_score := some (3/10)
    candidate_threshold := some 0
    max_dnp_deviation := 2/10
    tolerated_dnp_dev := 30
    tolerated_lfrc := STRICT_TOLERATED_LFRC
    max_bear_deviation := 30
    search_radius := 20
    geo_weight := 33/100
    frc_weight := 33/100
    fow_weight := 0
    bear_weight := 33/100
    fow_standin_score := RELAXED_FOW_STAND_IN_SCORE }

def IgnorePathLength : Config :=
  { min_score := some (3/10)
    candidate_threshold := some 0
    max_dnp_deviation := 1
    tolerated_dnp_dev := 1000
    tolerated_lfrc := STRICT_TOLERATED_LFRC
    max_bear_deviation := 30
    search_radius := 20
    geo_weight := 1/4
    frc_weight := 1/4
    fow_weight := 1/4
    bear_weight := 1/4
    fow_standin_score := STRICT_FOW_STAND_IN_SCORE }

/-! ## Map adapter layer: virtualization of stored rows into Lines

A stored road row (map_databases/tomtom_sqlite.py, buffer_reader.py). -/

structure Row where
  id : String
  direction : ℕ
  startId : String
  endId : String
  geom : List Pt
  length : ℚ
  frc : ℕ
  fow : ℕ
deriving DecidableEq

/-- A materialised directed Line (identity, endpoints, geometry and the
scalar attributes; the owning reader is implicit). -/
structure VLine where
  id : String
  fromId : String
  toId : String
  geom : List Pt
  length : ℚ
  frc : ℕ
  fow : ℕ
deriving DecidableEq

/-- The forward Line of a stored row, per the select list
line_query_select of TomTomMapReaderSQLite (id, endpoints and geometry as
stored). -/
def fwdLine (r : Row) : VLine :=
  { id := r.id, fromId := r.startId, toId := r.endId, geom := r.geom,
    length := r.length, frc := r.frc, fow := r.fow }

/-- The reverse Line of a stored row, per rev_line_query_select: the id
is prefixed with a minus sign, the endpoints are swapped and the geometry
reversed, the scalar attributes are shared. -/
def revLine (r : Row) : VLine :=
  { id := "-" ++ r.id, fromId := r.endId, toId := r.startId,
    geom := r.geom.reverse, length := r.length, frc := r.frc, fow := r.fow }

/-- Row materialisation of TomTomMapReaderSQLite.  Every line-serving SQL
statement of that class (get_lines_query, find_lines_close_to_query,
outgoing_lines_query, incoming_lines_query) is the union of the forward
select with no direction filter and the reverse select filtered by
direction = 1. -/
def tomtomRowLines (r : Row) : List VLine :=
  [fwdLine r] ++ (if r.direction = 1 then [revLine r] else [])

/-- Row materialisation of BufferReader.create_lines: the forward Line is
created when flowdir is in [1, 2], the reverse Line when flowdir is in
[1, 3]. -/
def bufferRowLines (r : Row) : List VLine :=
  (if r.direction = 1 ∨ r.direction = 2 then [fwdLine r] else []) ++
  (if r.direction = 1 ∨ r.direction = 3 then [revLine r] else [])

/-- are_peers (tomtom_sqlite.py and buffer_reader.py): two lines are
peers when the id of one is the minus-prefixed form of the id of the
other; a None source is never a peer. -/
def are_peers (candidate : VLine) (source : Option VLine) : Bool :=
  match source with
  | none => false
  | some s => candidate.id == "-" ++ s.id || s.id == "-" ++ candidate.id

/-- Node.outgoing_lines of TomTomMapReaderSQLite, as a function of the
rows served by outgoing_lines_query and of the adjacency cache: a
non-empty cache is replayed verbatim; otherwise the query rows that are
not peers of the source are yielded and become the new cache.  Returns
(yielded lines, updated cache). -/
def tomtomOutgoingLines (rows : List VLine) (cache : List VLine)
    (source : Option VLine) : List VLine × List VLine :=
  if cache ≠ [] then (cache, cache)
  else
    let kept := rows.filter (fun l => !are_peers l source)
    (kept, kept)

/-- Node.incoming_lines of TomTomMapReaderSQLite; same caching scheme as
the outgoing side. -/
def tomtomIncomingLines (rows : List VLine) (cache : List VLine)
    (source : Option VLine) : List VLine × List VLine :=
  if cache ≠ [] then (cache, cache)
  else
    let kept := rows.filter (fun l => !are_peers l source)
    (kept, kept)

/-- Node.outgoing_lines of the BufferReader variant: filters the
precomputed adjacency set by the contained-in-buffer flag and the peer
test on every call (no call-scoped cache). -/
def bufferOutgoingLines (adj : List VLine) (inBuffer : VLine → Bool)
    (source : Option VLine) : List VLine :=
  adj.filter (fun l => inBuffer l && !are_peers l source)

/-- Node.incoming_lines of the BufferReader variant. -/
def bufferIncomingLines (adj : List VLine) (inBuffer : VLine → Bool)
    (source : Option VLine) : List VLine :=
  adj.filter (fun l => inBuffer l && !are_peers l source)

/-! ## Diagnosis engine (decoding_analysis_tool/main.py)

The named configuration bundles passed at the call sites of main.py. -/

inductive ConfigName where
  | strict : ConfigName
  | anyPath : ConfigName
  | ignoreFRC : ConfigName
  | ignoreFOW : ConfigName
  | ignorePathLength : ConfigName
  | ignoreBearing : ConfigName
deriving DecidableEq

/-- The line-location decode result consumed by build_decoded_ls: the
matched line geometries in path order plus the positive and negative
trim offsets. -/
structure LineLoc where
  lines : List LineString
  p_off : ℚ
  n_off : ℚ

/-- Decoder output: either a line location or any other registered
location type (point, POI, raw coordinates), which main.py does not
handle beyond classifying it. -/
inductive MapObjects where
  | line : LineLoc → MapObjects
  | nonLine : MapObjects

/-- Second half of DecodingAnalysisTool.build_decoded_ls: trimming of the
negative offset from the already front-trimmed geometry. -/
def buildBack (g : Geod) (dr : LineLoc) (front : LineString) :
    Except GeoErr LineString :=
  if 0 < dr.n_off then
    match (split_line g front.reverse dr.n_off).2 with
    | none =>
      match front.head? with
      | some c => .ok [c, c]
      | none => .error .indexError
    | some back => .ok back.reverse
  else .ok front

/-- DecodingAnalysisTool.build_decoded_ls: join the matched line
geometries, then trim the positive offset from the start and the
negative offset from the end; an offset at or past the end degenerates
to a zero-length two-point geometry. -/
def build_decoded_ls (g : Geod) (dr : LineLoc) : Except GeoErr LineString :=
  match join_lines dr.lines with
  | .error e => .error e
  | .ok tmp =>
    if 0 < dr.p_off then
      match (split_line g tmp dr.p_off).2 with
      | none =>
        match tmp.getLast? with
        | some c => .ok [c, c]
        | none => .error .indexError
      | some front => buildBack g dr front
    else buildBack g dr tmp

/-- build_decoded_ls applied to a raw decode result, as the ladder steps
of main.py do: a non-line result has no lines attribute, so Python
raises AttributeError. -/
def build_decoded_ls_mo (g : Geod) (mo : MapObjects) : Except GeoErr LineString :=
  match mo with
  | .line ll => build_decoded_ls g ll
  | .nonLine => .error .attributeError

/-- The external effects of one analyze call: the map-bounds containment
test, the unrestricted reader matches (with the reader default config and
with an explicit bundle), the buffer-restricted reader matches, the
buffer-polygon containment test, shapely intersection length and shapely
planar length, and the geodesic solver.  The buffer polygon and the
BufferReader built from adjust_locref are fixed per call and are folded
into these oracles. -/
structure World where
  boundsContain : Bool
  geod : Geod
  matchDefault : Option MapObjects
  matchWith : ConfigName → Option MapObjects
  bufferMatch : ConfigName → Option MapObjects
  bufferContains : LineString → Bool
  interLength : LineString → ℚ
  shLength : LineString → ℚ

/-- DecodingAnalysisTool.determine_restricted_decoding_failure_cause
(main.py lines 129-143), as a function of the BufferReader match
outcomes. -/
def determine_restricted_decoding_failure_cause
    (bm : ConfigName → Option MapObjects) : AnalysisResult :=
  if (bm .anyPath).isNone then .MISSING_OR_MISCONFIGURED_ROAD
  else if (bm .ignoreFRC).isSome then .FRC_MISMATCH
  else if (bm .ignoreFOW).isSome then .FOW_MISMATCH
  else if (bm .ignorePathLength).isSome then .PATH_LENGTH_MISMATCH
  else if (bm .ignoreBearing).isSome then .BEARING_MISMATCH
  else .INCORRECT_FIRST_OR_LAST_LRP_PLACEMENT

/-- The restricted ladder as worded by the specification: AnyPath first;
then the fixed bundle order with the category of the first bundle that
finds a path. -/
def ladderOrder : List (ConfigName × AnalysisResult) :=
  [(.ignoreFRC, .FRC_MISMATCH), (.ignoreFOW, .FOW_MISMATCH),
   (.ignorePathLength, .PATH_LENGTH_MISMATCH), (.ignoreBearing, .BEARING_MISMATCH)]

/-- Modelled from the spec: the restricted failure-cause ladder of
section 4.2 step 6, stated with an explicit first-success search over the
fixed bundle order. -/
def restrictedLadderSpec (bm : ConfigName → Option MapObjects) : AnalysisResult :=
  if (bm .anyPath).isNone then .MISSING_OR_MISCONFIGURED_ROAD
  else
    match ladderOrder.find? (fun pr => (bm pr.1).isSome) with
    | some pr => pr.2
    | none => .INCORRECT_FIRST_OR_LAST_LRP_PLACEMENT

/-- One step of determine_unrestricted_decoding_failure_cause: match with
the bundle; when a result exists and its rebuilt geometry is contained in
the buffer, return the category, otherwise fall through. -/
def unrestrictedStep (w : World) (c : ConfigName) (res : AnalysisResult)
    (next : Except GeoErr AnalysisResult) : Except GeoErr AnalysisResult :=
  match w.matchWith c with
  | some mo =>
    match build_decoded_ls_mo w.geod mo with
    | .error e => .error e
    | .ok ls => if w.bufferContains ls then .ok res else next
  | none => next

/-- DecodingAnalysisTool.determine_unrestricted_decoding_failure_cause
(main.py lines 145-173). -/
def determine_unrestricted_decoding_failure_cause (w : World) :
    Except GeoErr AnalysisResult :=
  if (w.matchWith .anyPath).isNone then .ok .MISSING_OR_MISCONFIGURED_ROAD
  else
    unrestrictedStep w .ignoreFRC .FRC_MISMATCH
      (unrestrictedStep w .ignoreFOW .FOW_MISMATCH
        (unrestrictedStep w .ignorePathLength .PATH_LENGTH_MISMATCH
          (unrestrictedStep w .ignoreBearing .BEARING_MISMATCH
            (.ok .INCORRECT_FIRST_OR_LAST_LRP_PLACEMENT))))

/-- DecodingAnalysisTool.analyze_within_buffer (main.py lines 113-127). -/
def analyze_within_buffer (w : World) (decoded_ls : LineString) :
    Except GeoErr AnalysisResult :=
  match w.bufferMatch .strict with
  | some res =>
    match build_decoded_ls_mo w.geod res with
    | .error e => .error e
    | .ok lsWithinBuffer =>
      if lineLen w.geod decoded_ls < lineLen w.geod lsWithinBuffer then
        .ok .ALTERNATE_SHORTEST_PATH
      else
        determine_unrestricted_decoding_failure_cause w
  | none => .ok (determine_restricted_decoding_failure_cause w.bufferMatch)

/-- DecodingAnalysisTool.analyze (main.py lines 44-68).  A Python
exception escaping the call is the error case of the Except. -/
def analyze (w : World) : Except GeoErr (AnalysisResult × ℚ) :=
  if !w.boundsContain then .ok (.OUTSIDE_MAP_BOUNDS, 0)
  else
    match w.matchDefault with
    | some dr =>
      match dr with
      | .line ll =>
        match build_decoded_ls w.geod ll with
        | .error e => .error e
        | .ok decoded =>
          if w.bufferContains decoded then .ok (.OK, 1)
          else
            match analyze_within_buffer w decoded with
            | .error e => .error e
            | .ok res => .ok (res, w.interLength decoded / w.shLength decoded)
      | .nonLine => .ok (.UNSUPPORTED_LOCATION_TYPE, 0)
    | none =>
      match determine_unrestricted_decoding_failure_cause w with
      | .error e => .error e
      | .ok res => .ok (res, 0)

/-! ## adjust_locref (main.py lines 70-111) -/

/-- An OpenLR location reference point. -/
structure LRP where
  lon : ℚ
  lat : ℚ
  frc : ℕ
  fow : ℕ
  bear : ℤ
  lfrcnp : ℕ
  dnp : ℤ
deriving DecidableEq

instance : Inhabited LRP := ⟨⟨0, 0, 0, 0, 0, 0, 0⟩⟩

/-- An OpenLR line location reference: points plus the positive and
negative offsets. -/
structure LineLocationReference where
  points : List LRP
  poffs : ℕ
  noffs : ℕ
deriving DecidableEq

/-- The geoutils helpers used by adjust_locref (the geoutils.geoutils
module is not part of the sources; these are the abstract geometric
primitives it supplies): split a line at a point, geodesic length,
interpolation along a path and bearing between points. -/
structure AdjustGeo where
  splitAtPoint : List Pt → Pt → List Pt × List Pt
  lineStringLength : List Pt → ℚ
  interpolate : List Pt → ℚ → Pt
  bearing : Pt → Pt → ℚ

/-- Python int() truncation toward zero on an exact rational. -/
def pyInt (q : ℚ) : ℤ :=
  if 0 ≤ q then ⌊q⌋ else ⌈q⌉

/-- DecodingAnalysisTool.adjust_locref: when either offset is positive,
clip the first / last location reference points onto the source geometry
and zero the offsets.  Indexing follows the Python negative indices on a
list of at least two points. -/
def adjust_locref (ag : AdjustGeo) (locref : LineLocationReference)
    (ls : List Pt) : LineLocationReference :=
  if locref.poffs = 0 ∧ locref.noffs = 0 then locref
  else
    let lrps := locref.points
    let lrps :=
      if 0 < locref.poffs then
        let lrp1 := lrps.getD 1 default
        let p : Pt := (lrp1.lon, lrp1.lat)
        let pref := (ag.splitAtPoint ls p).1
        let dnp := ag.lineStringLength pref
        let bearingPoint := ag.interpolate pref 20
        let p0 := pref.headD (0, 0)
        let bear := ag.bearing p0 bearingPoint
        let old0 := lrps.getD 0 default
        lrps.set 0
          { lon := p0.1, lat := p0.2, frc := old0.frc, fow := old0.fow,
            bear := pyInt bear, lfrcnp := old0.lfrcnp, dnp := pyInt dnp }
      else lrps
    let lrps :=
      if 0 < locref.noffs then
        let n := lrps.length
        let lrpm2 := lrps.getD (n - 2) default
        let p : Pt := (lrpm2.lon, lrpm2.lat)
        let suff := (ag.splitAtPoint ls p).2
        let dnp := ag.lineStringLength suff
        let bearingPoint := ag.interpolate suff.reverse 20
        let pLast := suff.getLastD (0, 0)
        let bear := ag.bearing pLast bearingPoint
        let lrps2 := lrps.set (n - 2)
          { lon := lrpm2.lon, lat := lrpm2.lat, frc := lrpm2.frc,
            fow := lrpm2.fow, bear := lrpm2.bear, lfrcnp := lrpm2.lfrcnp,
            dnp := pyInt dnp }
        let oldLast := lrps2.getD (n - 1) default
        lrps2.set (n - 1)
          { lon := pLast.1, lat := pLast.2, frc := oldLast.frc,
            fow := oldLast.fow, bear := pyInt bear, lfrcnp := oldLast.lfrcnp,
            dnp := oldLast.dnp }
      else lrps
    { points := lrps, poffs := 0, noffs := 0 }

/-! ## match wrappers (tomtom_sqlite.py lines 358-393, buffer_reader.py
lines 233-258) -/

/-- Opaque stand-ins for an OpenLR binary string parse result. -/
structure LocRef where
  tag : ℕ
deriving DecidableEq

/-- TomTomMapReaderSQLite.match: binary_decode runs outside the try
block, so its exceptions propagate; the decode call runs inside
try/except Exception, returning None on any decoder exception. -/
def tomtom_match (binDecode : Except GeoErr LocRef)
    (decode : LocRef → ConfigName → Except GeoErr MapObjects)
    (cfg : ConfigName) : Except GeoErr (Option MapObjects) :=
  match binDecode with
  | .error e => .error e
  | .ok ref =>
    match decode ref cfg with
    | .ok r => .ok (some r)
    | .error _ => .ok none

/-- BufferReader.match: the reference was parsed at construction time;
the decode call runs inside try/except Exception, returning None on any
decoder exception. -/
def buffer_match (decode : ConfigName → Except GeoErr MapObjects)
    (cfg : ConfigName) : Option MapObjects :=
  match decode cfg with
  | .ok r => some r
  | .error _ => none

/-! ## Concrete instances used by witnesses and counterexamples -/

/-- A concrete geodesic model used to exercise the toolkit: points live
on a line of constant latitude, distance is the horizontal separation,
the azimuth encodes the direction sign and extrapolation moves along the
first coordinate. -/
def g1 : Geod :=
  { dist := fun p q => if p.1 ≤ q.1 then q.1 - p.1 else p.1 - q.1
    az := fun p q => if p.1 ≤ q.1 then 1 else -1
    extrap := fun p o a => (p.1 + o * a, p.2) }

def line0 : LineString := [(0, 0), (2, 0)]

def line1 : LineString := [(0, 0), (0, 0)]

def ll0 : LineLoc := { lines := [line0], p_off := 0, n_off := 0 }

/-- A decode result whose adjacent matched line geometries do not share
an endpoint coordinate. -/
def llBad : LineLoc :=
  { lines := [[(0, 0), (1, 0)], [(5, 5), (6, 6)]], p_off := 0, n_off := 0 }

/-- A call whose source geometry lies outside the map bounds. -/
def w0 : World :=
  { boundsContain := false, geod := g1, matchDefault := none,
    matchWith := fun _ => none, bufferMatch := fun _ => none,
    bufferContains := fun _ => false, interLength := fun _ => 0,
    shLength := fun _ => 0 }

/-- A call on which the initial default-config decode fails, the
unrestricted reader still finds AnyPath and IgnoreFRC paths inside the
buffer, while a buffer-restricted reader would find no path at all. -/
def w1 : World :=
  { boundsContain := true, geod := g1, matchDefault := none,
    matchWith := fun c =>
      match c with
      | .anyPath => some (.line ll0)
      | .ignoreFRC => some (.line ll0)
      | _ => none,
    bufferMatch := fun _ => none,
    bufferContains := fun _ => true, interLength := fun _ => 0,
    shLength := fun _ => 1 }

/-- A call whose initial decode succeeds with non-contiguous matched
geometries, so that rebuilding the decoded geometry raises. -/
def w2 : World :=
  { boundsContain := true, geod := g1, matchDefault := some (.line llBad),
    matchWith := fun _ => none, bufferMatch := fun _ => none,
    bufferContains := fun _ => true, interLength := fun _ => 0,
    shLength := fun _ => 1 }

/-- A stored road row whose direction code means reverse-only. -/
def row3 : Row :=
  { id := "7", direction := 3, startId := "a", endId := "b",
    geom := [(0, 0), (1, 0)], length := 5, frc := 2, fow := 3 }

/-- A two-way road from node N to node M, as seen in the forward
direction. -/
def fwd5 : VLine :=
  { id := "5", fromId := "N", toId := "M", geom := [(0, 0), (1, 0)],
    length := 1, frc := 1, fow := 1 }

/-- The reverse twin of fwd5, which the outgoing query of node M
serves. -/
def rev5 : VLine :=
  { id := "-5", fromId := "M", toId := "N", geom := [(1, 0), (0, 0)],
    length := 1, frc := 1, fow := 1 }

/-! ## Claim theorems -/

/-- Claim C1 (code bug): at any call whose source geometry falls outside
the map bounds, main.py must produce the enum member OUTSIDE_MAP_BOUNDS,
but the AnalysisResult enum of analysis_result.py defines no such member
(nor three further members the diagnosis branches and the test suite
use), so the call raises AttributeError instead of returning a pair from
the claimed closed set. -/
theorem analysis_result_enum_is_stale :
    analyze w0 = .ok (.OUTSIDE_MAP_BOUNDS, 0) ∧
    pyAttributeName .OUTSIDE_MAP_BOUNDS ∉ analysisResultEnumMembers ∧
    pyAttributeName .MISSING_OR_MISCONFIGURED_ROAD ∉ analysisResultEnumMembers ∧
    pyAttributeName .PATH_LENGTH_MISMATCH ∉ analysisResultEnumMembers ∧
    pyAttributeName .INCORRECT_FIRST_OR_LAST_LRP_PLACEMENT ∉ analysisResultEnumMembers :=
  ⟨rfl, by decide, by decide, by decide, by decide⟩

/-- Claim C2, counterexample: on a failed initial decode the code runs
the ladder of determine_unrestricted_decoding_failure_cause on the
unrestricted reader; on the world w1 this returns FRC_MISMATCH, while
the restricted ladder on the buffer-restricted adapter would return
MISSING_OR_MISCONFIGURED_ROAD, so analyze does not return the restricted
ladder category claimed. -/
theorem analyze_failure_not_restricted_ladder :
    analyze w1 = .ok (.FRC_MISMATCH, 0) ∧
    determine_restricted_decoding_failure_cause w1.bufferMatch =
      .MISSING_OR_MISCONFIGURED_ROAD ∧
    AnalysisResult.FRC_MISMATCH ≠ AnalysisResult.MISSING_OR_MISCONFIGURED_ROAD :=
  ⟨rfl, rfl, by decide⟩

/-- Claim C2 as amended: when the initial unrestricted decode finds no
path, analyze builds the buffer polygon and returns the category of the
unrestricted failure-cause ladder (AnyPath, then the Ignore* bundles on
the unrestricted reader, each accepted only when its rebuilt geometry is
contained in the buffer) together with overlap 0.0, propagating any
geometry error that ladder raises. -/
theorem analyze_failure_runs_unrestricted_ladder (w : World)
    (hb : w.boundsContain = true) (hm : w.matchDefault = none) :
    analyze w =
      Except.map (fun r => (r, (0 : ℚ)))
        (determine_unrestricted_decoding_failure_cause w) := by
  unfold analyze
  rw [hb, hm]
  cases determine_unrestricted_decoding_failure_cause w <;> simp [Except.map]

/-- Witness for the amended C2 theorem at the concrete world w1. -/
theorem analyze_failure_runs_unrestricted_ladder_witness :
    w1.boundsContain = true ∧ w1.matchDefault = none ∧
    analyze w1 =
      Except.map (fun r => (r, (0 : ℚ)))
        (determine_unrestricted_decoding_failure_cause w1) :=
  ⟨rfl, rfl, analyze_failure_runs_unrestricted_ladder w1 rfl rfl⟩

/-- Claim C3: the restricted failure-cause ladder equals its
specification reading: MISSING_OR_MISCONFIGURED_ROAD when AnyPath finds
no path, otherwise the category of the first bundle in the fixed order
IgnoreFRC, IgnoreFOW, IgnorePathLength, IgnoreBearing that finds a path,
and INCORRECT_FIRST_OR_LAST_LRP_PLACEMENT when none does. -/
theorem restricted_ladder_first_success (bm : ConfigName → Option MapObjects) :
    determine_restricted_decoding_failure_cause bm = restrictedLadderSpec bm := by
  unfold determine_restricted_decoding_failure_cause restrictedLadderSpec ladderOrder
  cases h0 : (bm .anyPath).isNone <;>
    cases h1 : (bm .ignoreFRC).isSome <;>
      cases h2 : (bm .ignoreFOW).isSome <;>
        cases h3 : (bm .ignorePathLength).isSome <;>
          cases h4 : (bm .ignoreBearing).isSome <;>
            simp [h0, h1, h2, h3, h4, List.find?]

/-- Helper: a minus-prefixed id differs from the id itself. -/
theorem neg_id_ne (s : String) : "-" ++ s ≠ s := by
  intro h
  have hlen : ("-" ++ s).length = s.length := congrArg String.length h
  rw [String.length_append] at hlen
  have h1 : "-".length = 1 := rfl
  rw [h1] at hlen
  omega

/-- Helper: the forward and reverse Lines of a row are distinct. -/
theorem fwdLine_ne_revLine (r : Row) : fwdLine r ≠ revLine r := by
  intro h
  have hid : (fwdLine r).id = (revLine r).id := congrArg VLine.id h
  have hid2 : r.id = "-" ++ r.id := hid
  exact neg_id_ne r.id hid2.symm

/-- Claim C4, counterexample: on a reverse-only row (direction code 3)
the TomTom reader materialises exactly the forward Line and never the
reverse Line, while the buffer adapter materialises exactly the reverse
Line; so the claimed direction rule fails on the full-map adapter. -/
theorem virtualization_counterexample :
    row3.direction = 3 ∧
    tomtomRowLines row3 = [fwdLine row3] ∧
    revLine row3 ∉ tomtomRowLines row3 ∧
    bufferRowLines row3 = [revLine row3] := by
  refine ⟨rfl, rfl, ?_, rfl⟩
  decide

/-- Claim C4 as amended: the claimed direction rule (forward iff
direction is both or forward-only, reverse iff both or reverse-only,
with the reverse twin carrying the negated id, reversed geometry,
swapped endpoints and shared scalars) holds for the buffer adapter
candidate load; the TomTom reader queries instead materialise the
forward Line for every row regardless of direction and the reverse Line
only for direction = both. -/
theorem virtualization_rule (r : Row) :
    ((fwdLine r ∈ bufferRowLines r) ↔ (r.direction = 1 ∨ r.direction = 2)) ∧
    ((revLine r ∈ bufferRowLines r) ↔ (r.direction = 1 ∨ r.direction = 3)) ∧
    fwdLine r ∈ tomtomRowLines r ∧
    ((revLine r ∈ tomtomRowLines r) ↔ r.direction = 1) ∧
    ((bufferRowLines r).length =
      if r.direction = 1 then 2
      else if r.direction = 2 ∨ r.direction = 3 then 1 else 0) ∧
    ((tomtomRowLines r).length = if r.direction = 1 then 2 else 1) ∧
    (revLine r).id = "-" ++ (fwdLine r).id ∧
    (revLine r).geom = (fwdLine r).geom.reverse ∧
    (revLine r).fromId = (fwdLine r).toId ∧
    (revLine r).toId = (fwdLine r).fromId ∧
    (revLine r).length = (fwdLine r).length ∧
    (revLine r).frc = (fwdLine r).frc ∧
    (revLine r).fow = (fwdLine r).fow := by
  have hne := fwdLine_ne_revLine r
  have hne2 : revLine r ≠ fwdLine r := fun h => hne h.symm
  refine ⟨?_, ?_, ?_, ?_, ?_, ?_, rfl, rfl, rfl, rfl, rfl, rfl, rfl⟩ <;>
    by_cases h1 : r.direction = 1 <;>
      by_cases h2 : r.direction = 2 <;>
        by_cases h3 : r.direction = 3 <;>
          simp_all [bufferRowLines, tomtomRowLines, hne, hne2]

/-- Claim C5, counterexample: a first full traversal of the outgoing
lines of a node with no source fills the adjacency cache with the
reverse twin; a later traversal that names the forward twin as its
source replays the cache verbatim and therefore yields the peer of the
source. -/
theorem peer_exclusion_counterexample :
    are_peers rev5 (some fwd5) = true ∧
    (tomtomOutgoingLines [rev5] [] none).2 = [rev5] ∧
    rev5 ∈ (tomtomOutgoingLines [rev5]
      (tomtomOutgoingLines [rev5] [] none).2 (some fwd5)).1 := by
  refine ⟨by decide, by decide, by decide⟩

/-- Claim C5 as amended: the peer of the source line is never yielded by
a TomTom node traversal that itself populates the adjacency cache (an
empty-cache call), and never by the buffer adapter traversals, whose
filter runs on every call; once a TomTom node cache is non-empty it is
replayed without re-filtering, so only cache-populating calls carry the
guarantee. -/
theorem peer_exclusion_amended (rows adj : List VLine) (inB : VLine → Bool)
    (src l : VLine) (h : are_peers l (some src) = true) :
    l ∉ (tomtomOutgoingLines rows [] (some src)).1 ∧
    l ∉ (tomtomIncomingLines rows [] (some src)).1 ∧
    l ∉ bufferOutgoingLines adj inB (some src) ∧
    l ∉ bufferIncomingLines adj inB (some src) := by
  refine ⟨?_, ?_, ?_, ?_⟩ <;> intro hmem <;>
    simp only [tomtomOutgoingLines, tomtomIncomingLines, bufferOutgoingLines,
      bufferIncomingLines, ne_eq, not_true_eq_false, if_false,
      List.mem_filter, reduceIte] at hmem <;>
    simp_all

/-- Witness for the amended C5 theorem at the concrete peer pair. -/
theorem peer_exclusion_amended_witness :
    are_peers rev5 (some fwd5) = true ∧
    rev5 ∉ (tomtomOutgoingLines [rev5] [] (some fwd5)).1 :=
  ⟨by decide,
   (peer_exclusion_amended [rev5] [] (fun _ => true) fwd5 rev5 (by decide)).1⟩

/-- Claim C7, counterexample: IgnoreBearing does zero the bearing weight
and relax the bearing deviation, but it also differs from Strict in
fields unrelated to bearing (the path-length tolerance and the remaining
weights), and IgnoreFRC likewise loosens the path-length tolerance. -/
theorem ignore_bundles_counterexample :
    IgnoreBearing.bear_weight = 0 ∧
    IgnoreBearing.max_bear_deviation = 180 ∧
    IgnoreBearing.max_dnp_deviation ≠ StrictConfig.max_dnp_deviation ∧
    IgnoreBearing.geo_weight ≠ StrictConfig.geo_weight ∧
    IgnoreFRC.max_dnp_deviation ≠ StrictConfig.max_dnp_deviation :=
  ⟨rfl, rfl, by norm_num [IgnoreBearing, StrictConfig],
   by norm_num [IgnoreBearing, StrictConfig],
   by norm_num [IgnoreFRC, StrictConfig]⟩

/-- Claim C7 as amended: each Ignore* bundle zeroes the weight of its
named dimension and maximally relaxes its tolerance, but additionally
differs from Strict by setting min_score to 0.3 and candidate_threshold
to 0, loosening max_dnp_deviation to 0.2 (1.0 together with
tolerated_dnp_dev 1000 for IgnorePathLength) and rebalancing the three
remaining weights to 0.33 (IgnorePathLength keeps the 0.25 weights). -/
theorem ignore_bundles_vs_strict :
    IgnoreFRC =
      { StrictConfig with
          min_score := some (3/10), candidate_threshold := some 0,
          max_dnp_deviation := 2/10, tolerated_lfrc := RELAXED_TOLERATED_LFRC,
          geo_weight := 33/100, frc_weight := 0, fow_weight := 33/100,
          bear_weight := 33/100 } ∧
    IgnoreFOW =
      { StrictConfig with
          min_score := some (3/10), candidate_threshold := some 0,
          max_dnp_deviation := 2/10,
          fow_standin_score := RELAXED_FOW_STAND_IN_SCORE,
          geo_weight := 33/100, frc_weight := 33/100, fow_weight := 0,
          bear_weight := 33/100 } ∧
    IgnorePathLength =
      { StrictConfig with
          min_score := some (3/10), candidate_threshold := some 0,
          max_dnp_deviation := 1, tolerated_dnp_dev := 1000 } ∧
    IgnoreBearing =
      { StrictConfig with
          min_score := some (3/10), candidate_threshold := some 0,
          max_dnp_deviation := 2/10, max_bear_deviation := 180,
          geo_weight := 33/100, frc_weight := 33/100, fow_weight := 33/100,
          bear_weight := 0 } :=
  ⟨rfl, rfl, rfl, rfl⟩

/-- Claim C8, counterexample: on the world w2 the matched line
geometries are not coordinate-contiguous; analyze propagates the
connectivity ValueError rather than returning UNKNOWN_ERROR. -/
theorem analyze_raises_not_unknown_error :
    analyze w2 = .error .notConnected ∧ (analyze w2).toOption = none :=
  ⟨rfl, rfl⟩

/-- Claim C8 as amended: when rebuilding the decoded geometry of a
successful line-location decode raises a geometry error, analyze
propagates that exception to its caller; no UNKNOWN_ERROR value is
returned. -/
theorem analyze_propagates_geometry_error (w : World) (ll : LineLoc)
    (e : GeoErr) (hb : w.boundsContain = true)
    (hm : w.matchDefault = some (.line ll))
    (hbuild : build_decoded_ls w.geod ll = .error e) :
    analyze w = .error e := by
  have hstep : analyze w =
      (match build_decoded_ls w.geod ll with
       | .error e2 => .error e2
       | .ok decoded =>
         if w.bufferContains decoded then .ok (.OK, 1)
         else
           match analyze_within_buffer w decoded with
           | .error e2 => .error e2
           | .ok res => .ok (res, w.interLength decoded / w.shLength decoded)) := by
    unfold analyze
    rw [hb, hm]
    rfl
  rw [hstep, hbuild]

/-- Witness for the amended C8 theorem at the concrete world w2. -/
theorem analyze_propagates_geometry_error_witness :
    w2.boundsContain = true ∧
    w2.matchDefault = some (.line llBad) ∧
    build_decoded_ls w2.geod llBad = .error .notConnected ∧
    analyze w2 = .error .notConnected :=
  ⟨rfl, rfl, rfl,
   analyze_propagates_geometry_error w2 llBad .notConnected rfl rfl rfl⟩

/-- Claim C10: both match wrappers convert every exception of the
external decode call into a None result (the only failure signal the
ladder branches on); the TomTom wrapper propagates no error once the
binary parse has succeeded, and the buffer wrapper is exception-free by
construction. -/
theorem match_swallows_decoder_exceptions (bd : Except GeoErr LocRef)
    (decode : LocRef → ConfigName → Except GeoErr MapObjects)
    (decodeB : ConfigName → Except GeoErr MapObjects)
    (cfg cfgB : ConfigName) (ref : LocRef) (h : bd = .ok ref) :
    tomtom_match bd decode cfg = .ok ((decode ref cfg).toOption) ∧
    (∀ e, tomtom_match bd decode cfg ≠ .error e) ∧
    buffer_match decodeB cfgB = (decodeB cfgB).toOption := by
  subst h
  refine ⟨?_, ?_, ?_⟩
  · cases h2 : decode ref cfg <;> simp [tomtom_match, h2, Except.toOption]
  · intro e hcontra
    cases h2 : decode ref cfg <;> simp [tomtom_match, h2] at hcontra
  · cases h2 : decodeB cfgB <;> simp [buffer_match, h2, Except.toOption]

/-- Witness for the C10 theorem: a parse that succeeds followed by a
decoder that raises yields .ok none, not an exception. -/
theorem match_swallows_decoder_exceptions_witness :
    (Except.ok ⟨0⟩ : Except GeoErr LocRef) = .ok ⟨0⟩ ∧
    tomtom_match (.ok ⟨0⟩) (fun _ _ => .error .notConnected) .strict = .ok none :=
  ⟨rfl,
   (match_swallows_decoder_exceptions (.ok ⟨0⟩)
     (fun _ _ => .error .notConnected) (fun _ => .error .notConnected)
     .strict .strict ⟨0⟩ rfl).1⟩

/-! ## Claim C9: frame of adjust_locref -/

/-- Equality of location reference points on every field except the
distance-to-next field. -/
def eqExceptDnp (a b : LRP) : Prop :=
  a.lon = b.lon ∧ a.lat = b.lat ∧ a.frc = b.frc ∧ a.fow = b.fow ∧
  a.bear = b.bear ∧ a.lfrcnp = b.lfrcnp

/-- Preservation of the road-classification fields of a point. -/
def sameClass (a b : LRP) : Prop :=
  a.frc = b.frc ∧ a.fow = b.fow ∧ a.lfrcnp = b.lfrcnp

theorem getD_set_ne {α : Type _} (l : List α) (j i : ℕ) (v d : α)
    (h : j ≠ i) : (l.set j v).getD i d = l.getD i d := by
  rw [List.getD_eq_getElem?_getD, List.getD_eq_getElem?_getD,
    List.getElem?_set_ne h]

theorem getD_set_self {α : Type _} (l : List α) (j : ℕ) (v d : α)
    (h : j < l.length) : (l.set j v).getD j d = v := by
  rw [List.getD_eq_getElem?_getD, List.getElem?_set_self h]
  rfl

/-- Claim C9: adjust_locref is the identity when both offsets are zero;
otherwise the returned reference has both offsets zero, the same number
of points, every interior point unchanged except possibly the
distance-to-next field of the second-to-last point, and the
classification fields (FRC, FOW, lowest FRC) of the first and last
points preserved even where those points are rewritten. -/
theorem adjust_locref_frame (ag : AdjustGeo) (locref : LineLocationReference)
    (ls : List Pt) (h2 : 2 ≤ locref.points.length) :
    (locref.poffs = 0 ∧ locref.noffs = 0 →
      adjust_locref ag locref ls = locref) ∧
    (adjust_locref ag locref ls).poffs = 0 ∧
    (adjust_locref ag locref ls).noffs = 0 ∧
    (adjust_locref ag locref ls).points.length = locref.points.length ∧
    (∀ i, 0 < i → i + 1 < locref.points.length →
      eqExceptDnp ((adjust_locref ag locref ls).points.getD i default)
        (locref.points.getD i default)) ∧
    (∀ i, 0 < i → i + 1 < locref.points.length →
      i ≠ locref.points.length - 2 →
      (adjust_locref ag locref ls).points.getD i default =
        locref.points.getD i default) ∧
    sameClass ((adjust_locref ag locref ls).points.getD 0 default)
      (locref.points.getD 0 default) ∧
    sameClass
      ((adjust_locref ag locref ls).points.getD
        (locref.points.length - 1) default)
      (locref.points.getD (locref.points.length - 1) default) := by
  by_cases h0 : locref.poffs = 0 ∧ locref.noffs = 0
  · have hid : adjust_locref ag locref ls = locref := by
      unfold adjust_locref
      rw [if_pos h0]
    rw [hid]
    refine ⟨fun _ => rfl, ?_, ?_, rfl, ?_, ?_, ?_, ?_⟩
    · exact h0.1
    · exact h0.2
    · exact fun i _ _ => ⟨rfl, rfl, rfl, rfl, rfl, rfl⟩
    · exact fun i _ _ _ => rfl
    · exact ⟨rfl, rfl, rfl⟩
    · exact ⟨rfl, rfl, rfl⟩
  refine ⟨fun hcon => absurd hcon h0, ?_⟩
  by_cases hp : 0 < locref.poffs <;> by_cases hq : 0 < locref.noffs
  · -- both offsets positive: index 0 is rewritten, then indices n-2, n-1
    simp only [adjust_locref, if_neg h0, if_pos hp, if_pos hq, List.length_set]
    refine ⟨by trivial, by trivial, by simp [List.length_set], ?_, ?_, ?_, ?_⟩
    · intro i hi0 hi1
      rw [getD_set_ne _ (locref.points.length - 1) i _ _ (by omega)]
      by_cases hm : i = locref.points.length - 2
      · rw [hm, getD_set_self _ _ _ _ (by simp [List.length_set]; omega)]
        refine ⟨?_, ?_, ?_, ?_, ?_, ?_⟩ <;>
          · dsimp only
            rw [getD_set_ne _ 0 (locref.points.length - 2) _ _ (by omega)]
      · rw [getD_set_ne _ (locref.points.length - 2) i _ _ (by omega),
          getD_set_ne _ 0 i _ _ (by omega)]
        exact ⟨rfl, rfl, rfl, rfl, rfl, rfl⟩
    · intro i hi0 hi1 hm
      rw [getD_set_ne _ (locref.points.length - 1) i _ _ (by omega),
        getD_set_ne _ (locref.points.length - 2) i _ _ (by omega),
        getD_set_ne _ 0 i _ _ (by omega)]
    · rw [getD_set_ne _ (locref.points.length - 1) 0 _ _ (by omega)]
      by_cases hn2 : locref.points.length - 2 = 0
      · rw [← hn2, getD_set_self _ _ _ _ (by simp [List.length_set]; omega)]
        refine ⟨?_, ?_, ?_⟩ <;>
          · dsimp only
            rw [hn2, getD_set_self _ _ _ _ (by omega)]
      · rw [getD_set_ne _ (locref.points.length - 2) 0 _ _ hn2,
          getD_set_self _ _ _ _ (by omega)]
        exact ⟨rfl, rfl, rfl⟩
    · rw [getD_set_self _ _ _ _ (by simp [List.length_set]; omega)]
      refine ⟨?_, ?_, ?_⟩ <;>
        · dsimp only
          rw [getD_set_ne _ (locref.points.length - 2)
              (locref.points.length - 1) _ _ (by omega),
            getD_set_ne _ 0 (locref.points.length - 1) _ _ (by omega)]
  · -- only the positive offset: index 0 is rewritten
    simp only [adjust_locref, if_neg h0, if_pos hp, if_neg hq, List.length_set]
    refine ⟨by trivial, by trivial, by simp [List.length_set], ?_, ?_, ?_, ?_⟩
    · intro i hi0 hi1
      rw [getD_set_ne _ 0 i _ _ (by omega)]
      exact ⟨rfl, rfl, rfl, rfl, rfl, rfl⟩
    · intro i hi0 hi1 hm
      rw [getD_set_ne _ 0 i _ _ (by omega)]
    · rw [getD_set_self _ _ _ _ (by omega)]
      exact ⟨rfl, rfl, rfl⟩
    · rw [getD_set_ne _ 0 (locref.points.length - 1) _ _ (by omega)]
      exact ⟨rfl, rfl, rfl⟩
  · -- only the negative offset: indices n-2 and n-1 are rewritten
    simp only [adjust_locref, if_neg h0, if_neg hp, if_pos hq, List.length_set]
    refine ⟨by trivial, by trivial, by simp [List.length_set], ?_, ?_, ?_, ?_⟩
    · intro i hi0 hi1
      rw [getD_set_ne _ (locref.points.length - 1) i _ _ (by omega)]
      by_cases hm : i = locref.points.length - 2
      · rw [hm, getD_set_self _ _ _ _ (by omega)]
        exact ⟨rfl, rfl, rfl, rfl, rfl, rfl⟩
      · rw [getD_set_ne _ (locref.points.length - 2) i _ _ (by omega)]
        exact ⟨rfl, rfl, rfl, rfl, rfl, rfl⟩
    · intro i hi0 hi1 hm
      rw [getD_set_ne _ (locref.points.length - 1) i _ _ (by omega),
        getD_set_ne _ (locref.points.length - 2) i _ _ (by omega)]
    · rw [getD_set_ne _ (locref.points.length - 1) 0 _ _ (by omega)]
      by_cases hn2 : locref.points.length - 2 = 0
      · rw [← hn2, getD_set_self _ _ _ _ (by omega)]
        exact ⟨rfl, rfl, rfl⟩
      · rw [getD_set_ne _ (locref.points.length - 2) 0 _ _ hn2]
        exact ⟨rfl, rfl, rfl⟩
    · rw [getD_set_self _ _ _ _ (by simp [List.length_set]; omega)]
      refine ⟨?_, ?_, ?_⟩ <;>
        · dsimp only
          rw [getD_set_ne _ (locref.points.length - 2)
              (locref.points.length - 1) _ _ (by omega)]
  · exact absurd ⟨by omega, by omega⟩ h0

/-- A trivial instantiation of the geoutils helpers. -/
def ag9 : AdjustGeo :=
  { splitAtPoint := fun l _ => (l, l), lineStringLength := fun _ => 0,
    interpolate := fun _ _ => (0, 0), bearing := fun _ _ => 0 }

def lr9 : LineLocationReference :=
  { points :=
      [{ lon := 0, lat := 0, frc := 1, fow := 2, bear := 3, lfrcnp := 4, dnp := 5 },
       { lon := 1, lat := 1, frc := 2, fow := 3, bear := 4, lfrcnp := 5, dnp := 6 }],
    poffs := 1, noffs := 0 }

def ls9 : List Pt := [(0, 0), (1, 1)]

/-- Witness for the C9 frame theorem at a concrete two-point reference
with a positive offset. -/
theorem adjust_locref_frame_witness :
    2 ≤ lr9.points.length ∧
    (adjust_locref ag9 lr9 ls9).poffs = 0 ∧
    (adjust_locref ag9 lr9 ls9).noffs = 0 ∧
    sameClass ((adjust_locref ag9 lr9 ls9).points.getD 0 default)
      (lr9.points.getD 0 default) :=
  ⟨by decide, (adjust_locref_frame ag9 lr9 ls9 (by decide)).2.1,
   (adjust_locref_frame ag9 lr9 ls9 (by decide)).2.2.1,
   (adjust_locref_frame ag9 lr9 ls9 (by decide)).2.2.2.2.2.2.1⟩

/-! ## Claim C6: properties of split_line and join_lines -/

/-- The geodesic length of an optional polyline, with None counting as
an empty (zero length) part. -/
def optLen (g : Geod) : Option (List Pt) → ℚ
  | none => 0
  | some l => lineLen g l

theorem segDists_cons_cons (g : Geod) (p q : Pt) (l : List Pt) :
    segDists g (p :: q :: l) = g.dist p q :: segDists g (q :: l) := by
  simp [segDists, List.zip_cons_cons]

theorem segDists_length (g : Geod) (l : List Pt) :
    (segDists g l).length = l.length - 1 := by
  simp [segDists, List.length_zip]

theorem getD_eq_getElem {α : Type _} (l : List α) (i : ℕ) (d : α)
    (h : i < l.length) : l.getD i d = l[i] := by
  rw [List.getD_eq_getElem?_getD, List.getElem?_eq_getElem h]
  rfl

theorem segDists_getD (g : Geod) :
    ∀ (l : List Pt) (i : ℕ), i + 1 < l.length →
      (segDists g l).getD i 0 = g.dist (l.getD i (0, 0)) (l.getD (i + 1) (0, 0))
  | [], i, h => by simp at h
  | [p], i, h => by simp at h
  | p :: q :: tl, 0, h => by
    rw [segDists_cons_cons]
    rfl
  | p :: q :: tl, (i + 1), h => by
    rw [segDists_cons_cons]
    have ih := segDists_getD g (q :: tl) i (by simpa using h)
    simpa using ih

theorem segDists_take (g : Geod) :
    ∀ (l : List Pt) (i : ℕ), segDists g (l.take (i + 1)) = (segDists g l).take i
  | [], i => by simp [segDists]
  | [p], i => by cases i <;> simp [segDists]
  | p :: q :: tl, 0 => by simp [segDists]
  | p :: q :: tl, (i + 1) => by
    have ih := segDists_take g (q :: tl) i
    rw [List.take_succ_cons] at ih
    simp only [List.take_succ_cons, segDists_cons_cons, ih]

theorem segDists_drop (g : Geod) :
    ∀ (l : List Pt) (i : ℕ), segDists g (l.drop i) = (segDists g l).drop i
  | l, 0 => by simp
  | [], (i + 1) => by simp [segDists]
  | [p], (i + 1) => by simp [segDists]
  | p :: q :: tl, (i + 1) => by
    have ih := segDists_drop g (q :: tl) i
    simpa [segDists_cons_cons] using ih

theorem segDists_append_last (g : Geod) :
    ∀ (l : List Pt) (p c : Pt),
      segDists g ((l ++ [p]) ++ [c]) = segDists g (l ++ [p]) ++ [g.dist p c]
  | [], p, c => by simp [segDists]
  | x :: tl, p, c => by
    have ih := segDists_append_last g tl p c
    cases htl : tl ++ [p] with
    | nil => exact absurd htl (by simp)
    | cons y rest =>
      have l1 : ((x :: tl) ++ [p]) ++ [c] = x :: y :: (rest ++ [c]) := by
        simp [htl]
      have l2 : (x :: tl) ++ [p] = x :: y :: rest := by simp [htl]
      rw [l1, l2, segDists_cons_cons, segDists_cons_cons]
      rw [show y :: (rest ++ [c]) = (tl ++ [p]) ++ [c] by simp [htl], ih, htl]
      simp

theorem take_succ_getD {α : Type _} (l : List α) (i : ℕ) (d : α)
    (h : i < l.length) : l.take (i + 1) = l.take i ++ [l.getD i d] := by
  rw [List.take_succ, List.getElem?_eq_getElem h, getD_eq_getElem l i d h]
  rfl

theorem sum_take_add_sum_drop (l : List ℚ) (i : ℕ) :
    (l.take i).sum + (l.drop i).sum = l.sum := by
  rw [← List.sum_append, List.take_append_drop]

theorem accumulate_le (d : ℚ) :
    ∀ (ds : List ℚ) (acc : ℚ), (∀ x ∈ ds, 0 ≤ x) →
      ∀ a ∈ accumulate ds acc, a ≤ acc + ds.sum
  | [], acc, _, a, ha => by simp [accumulate] at ha
  | y :: tl, acc, hnn, a, ha => by
    rw [accumulate] at ha
    rcases List.mem_cons.mp ha with h | h
    · have htl : 0 ≤ tl.sum :=
        List.sum_nonneg (fun x hx => hnn x (List.mem_cons_of_mem _ hx))
      rw [h]
      simp only [List.sum_cons]
      linarith
    · have ih := accumulate_le d tl (acc + y)
        (fun x hx => hnn x (List.mem_cons_of_mem _ hx)) a h
      simp only [List.sum_cons]
      linarith

theorem splitSearch_exhaust (g : Geod) (line : List Pt) (dists : List ℚ)
    (d : ℚ) :
    ∀ (accs : List ℚ) (i : ℕ), (∀ a ∈ accs, ¬ d < a) →
      splitSearch g line dists d i accs = (some line, none)
  | [], i, _ => rfl
  | a :: rest, i, h => by
    rw [splitSearch, if_neg (h a (List.mem_cons_self a rest))]
    exact splitSearch_exhaust g line dists d rest (i + 1)
      (fun x hx => h x (List.mem_cons_of_mem _ hx))

theorem join_pair (a b : List Pt) (s : Pt) (h1 : a.getLast? = some s)
    (h2 : b.head? = some s) : join_lines [a, b] = .ok (a ++ b.tail) := by
  cases a with
  | nil => simp at h1
  | cons x xs =>
    cases b with
    | nil => simp at h2
    | cons y ys =>
      have hy : y = s := by simpa using h2
      have hx : xs.getLast?.getD x = s := by
        rw [List.getLast?_cons] at h1
        exact Option.some_inj.mp h1
      simp [join_lines, joinAux, List.getLastD_eq_getLast?, hx, hy]

/-- The behaviour of the split_line loop when the split distance falls
strictly inside the remaining accumulated span: the loop stops at the
first index whose running sum exceeds the distance and returns the two
parts prescribed by the source, with the residual offset equal to the
distance minus the partial sum before that segment. -/
theorem splitSearch_found (g : Geod) (line : List Pt) (d : ℚ) :
    ∀ (ds₂ : List ℚ) (k : ℕ),
      (segDists g line).drop k = ds₂ →
      ((segDists g line).take k).sum ≤ d →
      d < ((segDists g line).take k).sum + ds₂.sum →
      ∃ i, k ≤ i ∧ i < (segDists g line).length ∧
        ((segDists g line).take i).sum ≤ d ∧
        d < ((segDists g line).take i).sum + (segDists g line).getD i 0 ∧
        ((d - ((segDists g line).take i).sum = 0 ∧
          splitSearch g line (segDists g line) d k
            (accumulate ds₂ (((segDists g line).take k).sum)) =
            (some (line.take (i + 1)), some (line.drop i))) ∨
         (0 < d - ((segDists g line).take i).sum ∧
          splitSearch g line (segDists g line) d k
            (accumulate ds₂ (((segDists g line).take k).sum)) =
            (some (line.take (i + 1) ++
              [g.extrap (line.getD i (0, 0))
                (d - ((segDists g line).take i).sum)
                (g.az (line.getD i (0, 0)) (line.getD (i + 1) (0, 0)))]),
             some (g.extrap (line.getD i (0, 0))
                (d - ((segDists g line).take i).sum)
                (g.az (line.getD i (0, 0)) (line.getD (i + 1) (0, 0))) ::
              line.drop (i + 1))))) := by
  intro ds₂
  induction ds₂ with
  | nil =>
    intro k hdrop hacc hlt
    simp only [List.sum_nil, add_zero] at hlt
    exact absurd hacc (not_le.mpr hlt)
  | cons a rest IH =>
    intro k hdrop hacc hlt
    have hk : k < (segDists g line).length := by
      have hlen := congrArg List.length hdrop
      simp only [List.length_drop, List.length_cons] at hlen
      omega
    have hgetq : (segDists g line)[k]? = some a := by
      rw [← List.head?_drop, hdrop]
      rfl
    have hget : (segDists g line)[k] = a := by
      have h2 : (segDists g line)[k]? = some ((segDists g line)[k]) :=
        List.getElem?_eq_getElem hk
      rw [h2] at hgetq
      exact Option.some_inj.mp hgetq
    have hgetD : (segDists g line).getD k 0 = a := by
      rw [getD_eq_getElem _ _ _ hk, hget]
    have hsum : ((segDists g line).take (k + 1)).sum =
        ((segDists g line).take k).sum + a := by
      rw [List.sum_take_succ _ k hk, hget]
    rw [accumulate]
    by_cases hfound : d < ((segDists g line).take k).sum + a
    · refine ⟨k, le_refl k, hk, hacc, ?_, ?_⟩
      · rw [hgetD]
        exact hfound
      · rw [splitSearch, if_pos hfound]
        have hoff : (segDists g line).getD k 0 -
            (((segDists g line).take k).sum + a - d) =
            d - ((segDists g line).take k).sum := by
          rw [hgetD]
          ring
        simp only [hoff]
        by_cases hz : d - ((segDists g line).take k).sum = 0
        · exact Or.inl ⟨hz, by rw [if_pos hz]⟩
        · refine Or.inr ⟨lt_of_le_of_ne (by linarith) (Ne.symm hz), ?_⟩
          rw [if_neg hz]
    · have hacc2 : ((segDists g line).take (k + 1)).sum ≤ d := by
        rw [hsum]
        exact not_lt.mp hfound
      have hdrop2 : (segDists g line).drop (k + 1) = rest := by
        rw [← List.tail_drop, hdrop]
        rfl
      have hlt2 : d < ((segDists g line).take (k + 1)).sum + rest.sum := by
        rw [hsum]
        simp only [List.sum_cons] at hlt
        linarith
      obtain ⟨i, hki, hi2, hi3, hi4, hi5⟩ := IH (k + 1) hdrop2 hacc2 hlt2
      rw [splitSearch, if_neg hfound]
      rw [show ((segDists g line).take k).sum + a =
          ((segDists g line).take (k + 1)).sum from hsum.symm]
      exact ⟨i, by omega, hi2, hi3, hi4, hi5⟩

/-- Claim C6 as amended: over any geodesic solver that is nonnegative
and metrically exact on extrapolated split points, split_line satisfies:
the prefix is None exactly when d = 0; the suffix is None exactly when
d equals the length and d is positive (a zero-length line split at
d = 0 keeps the whole line as suffix); when both parts exist they share
the split coordinate and their lengths sum exactly to the length of the
input; join_lines of the two parts concatenates them on the shared
coordinate, which reproduces the input coordinate sequence when the
split lands on a vertex and otherwise reproduces it with the split
coordinate inserted into the split segment. -/
theorem split_line_roundtrip (g : Geod) (line : List Pt) (d : ℚ)
    (hnn : ∀ p q : Pt, 0 ≤ g.dist p q)
    (hA : ∀ (p q : Pt) (o : ℚ), 0 ≤ o → o ≤ g.dist p q →
      g.dist p (g.extrap p o (g.az p q)) = o)
    (hB : ∀ (p q : Pt) (o : ℚ), 0 ≤ o → o ≤ g.dist p q →
      g.dist (g.extrap p o (g.az p q)) q = g.dist p q - o)
    (hd0 : 0 ≤ d) (hdL : d ≤ lineLen g line) :
    ((split_line g line d).1 = none ↔ d = 0) ∧
    ((split_line g line d).2 = none ↔ (d = lineLen g line ∧ d ≠ 0)) ∧
    (∀ pre suf, split_line g line d = (some pre, some suf) →
      ∃ c, pre.getLast? = some c ∧ suf.head? = some c) ∧
    optLen g (split_line g line d).1 + optLen g (split_line g line d).2 =
      lineLen g line ∧
    (∀ pre suf, split_line g line d = (some pre, some suf) →
      join_lines [pre, suf] = .ok (pre ++ suf.tail)) ∧
    (∀ pre suf, split_line g line d = (some pre, some suf) →
      (pre ++ suf.tail = line ∨
        ∃ i c, pre = line.take (i + 1) ++ [c] ∧
          suf = c :: line.drop (i + 1) ∧
          pre ++ suf.tail = line.take (i + 1) ++ c :: line.drop (i + 1))) := by
  have hdsnn : ∀ x ∈ segDists g line, 0 ≤ x := by
    intro x hx
    simp only [segDists, List.mem_map] at hx
    obtain ⟨pq, _, rfl⟩ := hx
    exact hnn pq.1 pq.2
  by_cases h0 : d = 0
  · subst h0
    have hsp : split_line g line 0 = (none, some line) := by
      unfold split_line
      rw [if_pos rfl]
    rw [hsp]
    refine ⟨by simp, by simp, ?_, by simp [optLen], ?_, ?_⟩ <;>
      · intro pre suf heq
        exact absurd (congrArg Prod.fst heq) (by simp)
  · by_cases hL : d = lineLen g line
    · have hall : ∀ a ∈ accumulate (segDists g line) 0, ¬ d < a := by
        intro a ha
        have hle := accumulate_le d (segDists g line) 0 hdsnn a ha
        simp only [zero_add] at hle
        rw [hL]
        exact not_lt.mpr hle
      have hsp : split_line g line d = (some line, none) := by
        unfold split_line
        rw [if_neg h0]
        exact splitSearch_exhaust g line (segDists g line) d _ 0 hall
      rw [hsp]
      refine ⟨by simp [h0], by exact iff_of_true rfl ⟨hL, h0⟩, ?_,
          by simp [optLen], ?_, ?_⟩ <;>
        · intro pre suf heq
          exact absurd (congrArg Prod.snd heq) (by simp)
    · have hdL2 : d < lineLen g line := lt_of_le_of_ne hdL hL
      obtain ⟨i, hk0, hilen, hile, hilt, hcase⟩ :=
        splitSearch_found g line d (segDists g line) 0 rfl (by simpa using hd0)
          (by simpa [lineLen] using hdL2)
      have hsplit_eq : split_line g line d =
          splitSearch g line (segDists g line) d 0
            (accumulate (segDists g line) (((segDists g line).take 0).sum)) := by
        unfold split_line
        rw [if_neg h0]
        rfl
      have hlen2 : i + 1 < line.length := by
        have := segDists_length g line
        omega
      have hoff0 : 0 ≤ d - ((segDists g line).take i).sum := by linarith
      have hgi : (segDists g line).getD i 0 =
          g.dist (line.getD i (0, 0)) (line.getD (i + 1) (0, 0)) :=
        segDists_getD g line i hlen2
      have hoffdist : d - ((segDists g line).take i).sum ≤
          g.dist (line.getD i (0, 0)) (line.getD (i + 1) (0, 0)) := by
        rw [hgi] at hilt
        linarith
      have e1 : ((segDists g line).take (i + 1)).sum +
          ((segDists g line).drop (i + 1)).sum = (segDists g line).sum :=
        sum_take_add_sum_drop _ _
      have e2 : ((segDists g line).take (i + 1)).sum =
          ((segDists g line).take i).sum + (segDists g line).getD i 0 := by
        rw [List.sum_take_succ _ i hilen, getD_eq_getElem _ _ _ hilen]
      rcases hcase with ⟨hz, heq⟩ | ⟨hpos, heq⟩
      · -- the split lands exactly on vertex i
        have hsp : split_line g line d =
            (some (line.take (i + 1)), some (line.drop i)) := by
          rw [hsplit_eq, heq]
        have hlast : (line.take (i + 1)).getLast? =
            some (line.getD i (0, 0)) := by
          rw [take_succ_getD line i (0, 0) (by omega), List.getLast?_concat]
        have hhead : (line.drop i).head? = some (line.getD i (0, 0)) := by
          rw [List.head?_drop,
            List.getElem?_eq_getElem (show i < line.length by omega),
            getD_eq_getElem line i (0, 0) (by omega)]
        refine ⟨by simp [hsp, h0], by simp [hsp, hL], ?_, ?_, ?_, ?_⟩
        · intro pre suf heq2
          rw [hsp] at heq2
          simp only [Prod.mk.injEq, Option.some_inj] at heq2
          obtain ⟨rfl, rfl⟩ := heq2
          exact ⟨line.getD i (0, 0), hlast, hhead⟩
        · have hlp : lineLen g (line.take (i + 1)) =
              ((segDists g line).take i).sum := by
            unfold lineLen
            rw [segDists_take]
          have hls : lineLen g (line.drop i) =
              ((segDists g line).drop i).sum := by
            unfold lineLen
            rw [segDists_drop]
          rw [hsp]
          simp only [optLen]
          rw [hlp, hls, sum_take_add_sum_drop]
          rfl
        · intro pre suf heq2
          rw [hsp] at heq2
          simp only [Prod.mk.injEq, Option.some_inj] at heq2
          obtain ⟨rfl, rfl⟩ := heq2
          exact join_pair _ _ _ hlast hhead
        · intro pre suf heq2
          rw [hsp] at heq2
          simp only [Prod.mk.injEq, Option.some_inj] at heq2
          obtain ⟨rfl, rfl⟩ := heq2
          left
          rw [List.tail_drop, List.take_append_drop]
      · -- the split falls strictly inside segment i
        have hsp : split_line g line d =
            (some (line.take (i + 1) ++
              [g.extrap (line.getD i (0, 0))
                (d - ((segDists g line).take i).sum)
                (g.az (line.getD i (0, 0)) (line.getD (i + 1) (0, 0)))]),
             some (g.extrap (line.getD i (0, 0))
                (d - ((segDists g line).take i).sum)
                (g.az (line.getD i (0, 0)) (line.getD (i + 1) (0, 0))) ::
              line.drop (i + 1))) := by
          rw [hsplit_eq, heq]
        have hdistc : g.dist (line.getD i (0, 0))
            (g.extrap (line.getD i (0, 0))
              (d - ((segDists g line).take i).sum)
              (g.az (line.getD i (0, 0)) (line.getD (i + 1) (0, 0)))) =
            d - ((segDists g line).take i).sum :=
          hA _ _ _ hoff0 hoffdist
        have hdistc2 : g.dist
            (g.extrap (line.getD i (0, 0))
              (d - ((segDists g line).take i).sum)
              (g.az (line.getD i (0, 0)) (line.getD (i + 1) (0, 0))))
            (line.getD (i + 1) (0, 0)) =
            g.dist (line.getD i (0, 0)) (line.getD (i + 1) (0, 0)) -
              (d - ((segDists g line).take i).sum) :=
          hB _ _ _ hoff0 hoffdist
        have hlast : (line.take (i + 1) ++
            [g.extrap (line.getD i (0, 0))
              (d - ((segDists g line).take i).sum)
              (g.az (line.getD i (0, 0))
                (line.getD (i + 1) (0, 0)))]).getLast? =
            some (g.extrap (line.getD i (0, 0))
              (d - ((segDists g line).take i).sum)
              (g.az (line.getD i (0, 0)) (line.getD (i + 1) (0, 0)))) :=
          List.getLast?_concat _
        refine ⟨by simp [hsp, h0], by simp [hsp, hL], ?_, ?_, ?_, ?_⟩
        · intro pre suf heq2
          rw [hsp] at heq2
          simp only [Prod.mk.injEq, Option.some_inj] at heq2
          obtain ⟨rfl, rfl⟩ := heq2
          exact ⟨_, hlast, rfl⟩
        · have h1 : line.take (i + 1) =
              line.take i ++ [line.getD i (0, 0)] :=
            take_succ_getD line i (0, 0) (by omega)
          have h2 : segDists g (line.take (i + 1) ++
              [g.extrap (line.getD i (0, 0))
                (d - ((segDists g line).take i).sum)
                (g.az (line.getD i (0, 0)) (line.getD (i + 1) (0, 0)))]) =
              segDists g (line.take (i + 1)) ++
                [g.dist (line.getD i (0, 0))
                  (g.extrap (line.getD i (0, 0))
                    (d - ((segDists g line).take i).sum)
                    (g.az (line.getD i (0, 0))
                      (line.getD (i + 1) (0, 0))))] := by
            rw [h1]
            exact segDists_append_last g _ _ _
          have h3 : line.drop (i + 1) =
              line.getD (i + 1) (0, 0) :: line.drop (i + 2) := by
            rw [getD_eq_getElem line (i + 1) (0, 0) hlen2]
            exact List.drop_eq_getElem_cons hlen2
          have h4 : segDists g
              (g.extrap (line.getD i (0, 0))
                (d - ((segDists g line).take i).sum)
                (g.az (line.getD i (0, 0)) (line.getD (i + 1) (0, 0))) ::
                line.drop (i + 1)) =
              g.dist
                (g.extrap (line.getD i (0, 0))
                  (d - ((segDists g line).take i).sum)
                  (g.az (line.getD i (0, 0)) (line.getD (i + 1) (0, 0))))
                (line.getD (i + 1) (0, 0)) ::
                segDists g (line.drop (i + 1)) := by
            rw [h3, segDists_cons_cons]
          rw [hsp]
          simp only [optLen]
          unfold lineLen
          rw [h2, h4, List.sum_append, segDists_take, segDists_drop]
          simp only [List.sum_cons, List.sum_nil, add_zero]
          rw [hdistc, hdistc2]
          rw [hgi] at e2
          linarith [e1, e2]
        · intro pre suf heq2
          rw [hsp] at heq2
          simp only [Prod.mk.injEq, Option.some_inj] at heq2
          obtain ⟨rfl, rfl⟩ := heq2
          exact join_pair _ _ _ hlast rfl
        · intro pre suf heq2
          rw [hsp] at heq2
          simp only [Prod.mk.injEq, Option.some_inj] at heq2
          obtain ⟨rfl, rfl⟩ := heq2
          right
          exact ⟨i, _, rfl, rfl, by simp⟩

/-- The concrete solver g1 is nonnegative. -/
theorem g1_dist_nonneg (p q : Pt) : 0 ≤ g1.dist p q := by
  simp only [g1]
  split <;> linarith

/-- The concrete solver g1 reaches an extrapolated point at exactly the
requested distance. -/
theorem g1_extrap_exact (p q : Pt) (o : ℚ) (h0 : 0 ≤ o)
    (_h1 : o ≤ g1.dist p q) :
    g1.dist p (g1.extrap p o (g1.az p q)) = o := by
  by_cases h : p.1 ≤ q.1
  · simp only [g1, if_pos h]
    rw [if_pos (by linarith : p.1 ≤ p.1 + o * 1)]
    ring
  · simp only [g1, if_neg h]
    by_cases ho : o = 0
    · subst ho
      rw [if_pos (by linarith : p.1 ≤ p.1 + 0 * (-1))]
      ring
    · rw [if_neg (by
        have hpos : 0 < o := lt_of_le_of_ne h0 (Ne.symm ho)
        intro hcon
        nlinarith)]
      ring

/-- The concrete solver g1 leaves exactly the residual distance from an
extrapolated point to the segment end. -/
theorem g1_extrap_rest (p q : Pt) (o : ℚ) (_h0 : 0 ≤ o)
    (h1 : o ≤ g1.dist p q) :
    g1.dist (g1.extrap p o (g1.az p q)) q = g1.dist p q - o := by
  by_cases h : p.1 ≤ q.1
  · simp only [g1, if_pos h] at h1 ⊢
    rw [if_pos (by linarith : p.1 + o * 1 ≤ q.1)]
    ring
  · simp only [g1, if_neg h] at h1 ⊢
    by_cases hc : p.1 + o * (-1) ≤ q.1
    · rw [if_pos hc]
      have : p.1 + o * (-1) = q.1 := le_antisymm hc (by linarith)
      linarith
    · rw [if_neg hc]
      ring

/-- The modelled geodesic length is nonnegative for a nonnegative
solver. -/
theorem lineLen_nonneg (g : Geod) (hnn : ∀ p q : Pt, 0 ≤ g.dist p q)
    (l : List Pt) : 0 ≤ lineLen g l := by
  unfold lineLen
  apply List.sum_nonneg
  intro x hx
  simp only [segDists, List.mem_map] at hx
  obtain ⟨pq, _, rfl⟩ := hx
  exact hnn pq.1 pq.2

/-- Claim C6, counterexample: splitting the one-segment line line0 of
length 2 at d = 1 (within 0 <= d <= length) gives two parts whose join
inserts the split coordinate, so join_lines does not reconstruct the
original coordinate sequence; and on the zero-length polyline line1
split at d = 0 = length the suffix is not None although the split point
is at the end. -/
theorem split_join_not_exact :
    split_line g1 line0 1 = (some [(0, 0), (1, 0)], some [(1, 0), (2, 0)]) ∧
    join_lines [[(0, 0), (1, 0)], [(1, 0), (2, 0)]] =
      .ok [(0, 0), (1, 0), (2, 0)] ∧
    ([(0, 0), (1, 0), (2, 0)] : List Pt) ≠ line0 ∧
    (0 : ℚ) ≤ 1 ∧ (1 : ℚ) ≤ lineLen g1 line0 ∧
    lineLen g1 line1 = 0 ∧ (split_line g1 line1 0).2 ≠ none := by
  have hlen0 : lineLen g1 line0 = 2 := by
    norm_num [lineLen, segDists, line0, g1]
  refine ⟨?_, rfl, by decide, by norm_num, by rw [hlen0]; norm_num, ?_, ?_⟩
  · have h1 : segDists g1 line0 = [2] := by norm_num [segDists, line0, g1]
    have h3 : split_line g1 line0 1 = splitSearch g1 line0 [2] 1 0 [2] := by
      unfold split_line
      rw [if_neg (by norm_num : (1 : ℚ) ≠ 0), h1]
      norm_num [accumulate]
    rw [h3, splitSearch, if_pos (by norm_num : (1 : ℚ) < 2)]
    norm_num [line0, g1]
  · norm_num [lineLen, segDists, line1, g1]
  · rw [show (split_line g1 line1 0).2 = some line1 from rfl]
    simp

/-- Witness for the amended C6 theorem at the concrete line line0 and
distance 0. -/
theorem split_line_roundtrip_witness :
    (0 : ℚ) ≤ 0 ∧ (0 : ℚ) ≤ lineLen g1 line0 ∧
    ((split_line g1 line0 0).1 = none ↔ (0 : ℚ) = 0) ∧
    optLen g1 (split_line g1 line0 0).1 + optLen g1 (split_line g1 line0 0).2 =
      lineLen g1 line0 :=
  ⟨le_refl 0, lineLen_nonneg g1 g1_dist_nonneg line0,
   (split_line_roundtrip g1 line0 0 g1_dist_nonneg g1_extrap_exact
     g1_extrap_rest (le_refl 0) (lineLen_nonneg g1 g1_dist_nonneg line0)).1,
   (split_line_roundtrip g1 line0 0 g1_dist_nonneg g1_extrap_exact
     g1_extrap_rest (le_refl 0)
     (lineLen_nonneg g1 g1_dist_nonneg line0)).2.2.2.1⟩

end OpenLRWebtool
